import Mathlib

/-!
Verification of the mosamem export-server rendering pipeline.

Shallow embedding of the TypeScript sources:
  * renderer/captureFrames (the staged-assets variant with `downloadAsset`,
    `prepareDesignAssets`, `cleanupExport` and `renderVideo`) — referred to
    below as the staged pipeline; the older in-tree variant of `renderVideo`
    (storage-mapped paths, no cleanup) is embedded where a claim depends on
    its differing behaviour and is called the legacy variant;
  * renderer/audio (`extractAudio`);
  * renderer/ffmpeg (`mergeVideo`).

Conventions: machine floats (durations, seconds) are modelled as ℚ;
side-effecting collaborators (the filesystem, ffprobe, fetch, the md5 hash)
are oracle parameters; fallible operations return `Option`; a thrown JS
exception is `some errorName` in an `Option String` outcome (with `none`
meaning the function returned normally).
-/

/-- A scene element, as the JS code reads it: `type`, an optional
`customType` override, an optional `src` / `originalSrc`, and the
preview-mute flag.  Absent JS fields are `none`. -/
structure DesignObject where
  type : String
  customType : Option String := none
  src : Option String := none
  originalSrc : Option String := none
  muted : Bool := false
deriving Repr, DecidableEq

/-- JS `a || b` on an optional string field: `none` and `""` are falsy. -/
def jsOrElse (a : Option String) (b : String) : String :=
  match a with
  | none => b
  | some s => if s = "" then b else s

/-- `obj.customType || obj.type`, the element-kind test used throughout the
pipeline (duration scan, audio extraction). -/
def elementType (o : DesignObject) : String :=
  jsOrElse o.customType o.type

/-- JS truthiness of `obj.src` (`undefined` and `""` are falsy). -/
def srcTruthy (o : DesignObject) : Bool :=
  match o.src with
  | none => false
  | some s => s != ""

/-- `path.join(a, b)`, modelled as slash concatenation (POSIX form, no
normalisation — neither argument contains `..` segments in the pipeline). -/
def joinPath (a b : String) : String := a ++ "/" ++ b

/-- JS `string.split(sep)` for the single-character separators the pipeline
uses (`/`, `.`, `?`), on the underlying character list. -/
def splitOnChar (c : Char) : List Char → List (List Char)
  | [] => [[]]
  | x :: rest =>
      let r := splitOnChar c rest
      if x = c then [] :: r
      else
        match r with
        | [] => [[x]]
        | h :: t => (x :: h) :: t

/-- JS `string.startsWith(pre)`. -/
def strStartsWith (s pre : String) : Bool :=
  pre.toList.isPrefixOf s.toList

/-- `path.extname`: the extension of the last path segment — everything from
the final dot of the basename; empty when the basename has no dot or is a
dotfile. -/
def extnameOf (p : String) : String :=
  let base := List.getLastD (splitOnChar '/' p.toList) []
  match splitOnChar '.' base with
  | [] => ""
  | [_] => ""
  | first :: rest =>
      if first = [] && rest.length = 1 then ""
      else String.mk ('.' :: List.getLastD rest [])

/-- The staged pipeline's extension choice for a downloaded asset:
`extname(url).split('?')[0]`, replaced by `".bin"` when empty or longer
than five characters (`downloadAsset`, lines 42–43). -/
def assetExt (url : String) : String :=
  let ext := String.mk (List.headD (splitOnChar '?' (extnameOf url).toList) [])
  if ext = "" ∨ ext.length > 5 then ".bin" else ext

/-- The set of files present on disk, as the pipeline observes it through
`existsSync` / `writeFile`. -/
structure FsState where
  files : List String
deriving Repr, DecidableEq

/-- The outcome of one `downloadAsset` call: the returned string, the
filesystem afterwards, whether `fetch` was called, whether a file was
written. -/
structure DlResult where
  result : String
  fs : FsState
  fetched : Bool
  wrote : Bool
deriving Repr, DecidableEq

/-- `downloadAsset(url, assetsDir)` (staged pipeline, lines 35–66).
`hashFn` stands for the md5 hex digest, `fetchOk` for whether the network
fetch succeeds (a thrown fetch / non-ok response / failed write all land in
the catch branch, which returns the original URL). -/
def downloadAsset (hashFn : String → String) (fetchOk : String → Bool)
    (url : String) (assetsDir : String) (st : FsState) : DlResult :=
  if url = "" ∨ ¬ strStartsWith url "http" then ⟨url, st, false, false⟩
  else
    let localPath := joinPath assetsDir (hashFn url ++ assetExt url)
    if localPath ∈ st.files then ⟨localPath, st, false, false⟩
    else if fetchOk url then ⟨localPath, ⟨localPath :: st.files⟩, true, true⟩
    else ⟨url, st, true, false⟩

/-- The per-object body of `prepareDesignAssets.processObjects` (staged
pipeline, lines 79–88): stage `obj.src`, and when a distinct non-empty local
path came back, assign `obj.src = localPath` and then
`obj.originalSrc = obj.src` — the two sequential assignments are kept in
source order. -/
def stageObject (hashFn : String → String) (fetchOk : String → Bool)
    (assetsDir : String) (o : DesignObject) (st : FsState) :
    DesignObject × FsState :=
  match o.src with
  | none => (o, st)
  | some s =>
      if s = "" then (o, st)
      else
        let r := downloadAsset hashFn fetchOk s assetsDir st
        if r.result ≠ "" ∧ r.result ≠ s then
          let o1 := { o with src := some r.result }
          let o2 := { o1 with originalSrc := o1.src }
          (o2, r.fs)
        else (o, r.fs)

/-- `processObjects` over the whole object list, threading the filesystem. -/
def stageObjects (hashFn : String → String) (fetchOk : String → Bool)
    (assetsDir : String) : List DesignObject → FsState →
    List DesignObject × FsState
  | [], st => ([], st)
  | o :: rest, st =>
      let p := stageObject hashFn fetchOk assetsDir o st
      let q := stageObjects hashFn fetchOk assetsDir rest p.2
      (p.1 :: q.1, q.2)

/-- The `checkObjectsDuration` scan (staged pipeline, lines 237–247):
fold over the objects, probing each element whose kind is `video`, whose
`src` is truthy and whose local file exists, keeping the running maximum
(`if (d > maxVideoDuration) maxVideoDuration = d`, starting from 0).
`fileExists` is `existsSync`, `probe` is `getMediaDuration` (already `0` on
a probe failure, per its `parseFloat(output) || 0`).  One fold step: -/
def durationStep (fileExists : String → Bool) (probe : String → ℚ)
    (m : ℚ) (o : DesignObject) : ℚ :=
  match o.src with
  | none => m
  | some s =>
      if elementType o == "video" && s != "" && fileExists s then
        (if probe s > m then probe s else m)
      else m

/-- The whole scan: fold `durationStep` from `0` over the object list. -/
def maxVideoDuration (fileExists : String → Bool) (probe : String → ℚ)
    (objs : List DesignObject) : ℚ :=
  objs.foldl (durationStep fileExists probe) 0

/-- The audio-duration step (staged pipeline, lines 229–233):
`audioDuration = 0`, overwritten by the probe only when `extractAudio`
returned a path and the file exists. -/
def audioDurationOf (fileExists : String → Bool) (probe : String → ℚ)
    (audioPath : Option String) : ℚ :=
  match audioPath with
  | none => 0
  | some p => if p ≠ "" ∧ fileExists p then probe p else 0

/-- `const duration = Math.max(maxVideoDuration, audioDuration, 5)`
(staged pipeline, line 261). -/
def resolvedDuration (fileExists : String → Bool) (probe : String → ℚ)
    (objs : List DesignObject) (audioPath : Option String) : ℚ :=
  max (max (maxVideoDuration fileExists probe objs)
        (audioDurationOf fileExists probe audioPath)) 5

/-- `const fps = 24` (staged pipeline, line 200). -/
def exportFps : ℕ := 24

/-- `const totalFrames = Math.floor(duration * fps)` (staged pipeline,
line 410), as a natural number (the resolved duration is ≥ 5, so the floor
is non-negative there). -/
def totalFramesOf (duration : ℚ) : ℕ :=
  (⌊duration * (exportFps : ℚ)⌋).toNat

/-- One pass of the frame-capture `for` loop (staged pipeline, lines
428–452), recursing on the number of remaining iterations.  Each iteration
unconditionally persists `frame_<i>.png` (recorded here as the index `i`);
for `i < 5` it also samples seek accuracy: `seekAcc i` is the measured
`|video.currentTime - time|` reported by the page for iteration `i`, and
`successfulSeeks` / `failedSeeks` are bumped by the `accuracy < 0.5` test.
The accumulated frame list is kept reversed and flipped at the end. -/
def captureLoopGo (seekAcc : ℕ → ℚ) :
    ℕ → ℕ → List ℕ → ℕ → ℕ → List ℕ × ℕ × ℕ
  | _, 0, frames, succ, fail => (frames.reverse, succ, fail)
  | i, n + 1, frames, succ, fail =>
      if i < 5 then
        if seekAcc i < 1/2 then
          captureLoopGo seekAcc (i + 1) n (i :: frames) (succ + 1) fail
        else
          captureLoopGo seekAcc (i + 1) n (i :: frames) succ (fail + 1)
      else
        captureLoopGo seekAcc (i + 1) n (i :: frames) succ fail

/-- The indices whose frame files the completed capture loop has written. -/
def framesCaptured (seekAcc : ℕ → ℚ) (total : ℕ) : List ℕ :=
  (captureLoopGo seekAcc 0 total [] 0 0).1

/-- `successfulSeeks` after the capture loop. -/
def seekSuccesses (seekAcc : ℕ → ℚ) (total : ℕ) : ℕ :=
  (captureLoopGo seekAcc 0 total [] 0 0).2.1

/-- `failedSeeks` after the capture loop. -/
def seekFailures (seekAcc : ℕ → ℚ) (total : ℕ) : ℕ :=
  (captureLoopGo seekAcc 0 total [] 0 0).2.2

/-- The FFmpeg-fallback decision (staged pipeline, lines 454–461):
`if (failedSeeks > successfulSeeks)` and then
`designObjects.length === 1 && designObjects[0].type === 'video'`
(note: the raw `type` field, and a single-element object list). -/
def fallbackInvoked (succ fail : ℕ) (objs : List DesignObject) : Bool :=
  if fail > succ then
    match objs with
    | [o] => o.type == "video"
    | _ => false
  else false

/-- The spec's seek-accuracy success ratio, `successes/(successes+failures)`. -/
def successRate (succ fail : ℕ) : ℚ :=
  (succ : ℚ) / ((succ : ℚ) + (fail : ℚ))

/-- `__SEEK_VIDEO__`, per playable element (staged pipeline, lines 380–394):
an element within `0.05`s of the target resolves at once; otherwise the
promise resolves at the `seeked` event (`seekedAt`, `none` when the event
never fires) or at the 2000 ms fallback timer, whichever is earlier.  The
value is the wait in seconds. -/
def seekWaitOne (current target : ℚ) (seekedAt : Option ℚ) : ℚ :=
  if |current - target| < 1/20 then 0
  else
    match seekedAt with
    | none => 2
    | some t => min t 2

/-- `Promise.all` over the per-element seek promises:   the call returns when
the slowest element resolves (`videos` pairs each element's current position
with its seeked-event time).  An empty element list returns at once. -/
def seekToWaits (videos : List (ℚ × Option ℚ)) (target : ℚ) : ℚ :=
  (videos.map (fun v => seekWaitOne v.1 target v.2)).foldl max 0

/-- `{ o with muted := b }`: used to state that extraction ignores the
preview-mute flag. -/
def setMuted (b : Bool) (o : DesignObject) : DesignObject :=
  { o with muted := b }

/-- `extractAudio` (renderer/audio, lines 54–94), from the already-unwrapped
object list: find the first element whose kind is `video`
(`objects.find(o => (o.customType || o.type) === 'video')`); the muted flag
is only logged; `if (!videoObj.src) return null`; otherwise run ffmpeg,
whose output file is `join(dir, 'audio.aac')` — `ffmpegOk` is whether that
invocation succeeds (`null` from the catch branch otherwise). -/
def extractAudioFromObjects (ffmpegOk : Bool) (dir : String)
    (objects : List DesignObject) : Option String :=
  match List.find? (fun o => elementType o == "video") objects with
  | none => none
  | some v =>
      match v.src with
      | none => none
      | some s =>
          if s = "" then none
          else if ffmpegOk then some (joinPath dir "audio.aac") else none

/-- The job's working directory `join(tmpdir(), exportId)`, as the pipeline
observes it: just whether it currently exists. -/
structure JobFs where
  dirExists : Bool
deriving Repr, DecidableEq

/-- `cleanupExport(exportId)` (staged pipeline, lines 22–33): when the
directory exists, `rm(exportDir, {recursive, force})`; a throwing `rm`
(`rmOk = false`) is caught and only logged, leaving the directory behind. -/
def cleanupExport (rmOk : Bool) (fs : JobFs) : JobFs :=
  if fs.dirExists then (if rmOk then { dirExists := false } else fs) else fs

/-- The `reportProgress` posts issued inside the capture loop (staged
pipeline, lines 428–431): every fifth index posts
`(Math.round(i / totalFrames * 100), 'rendering_frames')`. -/
def loopReports (total : ℕ) : List (ℕ × String) :=
  ((List.range total).filter (fun i => i % 5 == 0)).map
    (fun i => ((round ((i : ℚ) * 100 / (total : ℚ))).toNat, "rendering_frames"))

/-- The merge / upload tail of the staged pipeline (lines 463–490):
post `(90, merging_video)`, run `mergeVideo` (`mergeOk = false` models its
non-zero encoder exit, which throws), post `(95, uploading)`, and then — when
the merged file exists — `fetch` the multipart upload and
`if (!uploadRes.ok) throw new Error('Upload failed: …')`; only the
missing-file `else` branch posts `(100, failed)`.  Returns the posts made
from this point on, with the thrown error (if any). -/
def mergeTail (mergeOk fsVideo uploadOk : Bool) :
    List (ℕ × String) × Option String :=
  if mergeOk = false then ([(90, "merging_video")], some "EncodeError")
  else if fsVideo then
    if uploadOk then
      ([(90, "merging_video"), (95, "uploading"), (100, "completed")], none)
    else
      ([(90, "merging_video"), (95, "uploading")], some "UploadError")
  else
    ([(90, "merging_video"), (95, "uploading"), (100, "failed")], none)

/-- The same tail in the legacy `renderVideo` variant
(renderer/captureFrames, lines 529–583): there the upload sits in an inner
`try`, whose `catch` posts `(100, failed)` and then rethrows. -/
def legacyMergeTail (mergeOk fsVideo uploadOk : Bool) :
    List (ℕ × String) × Option String :=
  if mergeOk = false then ([(90, "merging_video")], some "EncodeError")
  else if fsVideo then
    if uploadOk then
      ([(90, "merging_video"), (95, "uploading"), (100, "completed")], none)
    else
      ([(90, "merging_video"), (95, "uploading"), (100, "failed")],
        some "UploadError")
  else
    ([(90, "merging_video"), (95, "uploading"), (100, "failed")], none)

/-- What a finished `renderVideo` call left behind: the job directory, the
progress posts, and the outcome (`none` = returned, `some e` = threw `e`). -/
structure RunResult where
  fs : JobFs
  reports : List (ℕ × String)
  outcome : Option String
deriving Repr, DecidableEq

/-- `renderVideo` (staged pipeline, lines 199–499) at the level the claims
need: `mkdir` creates the job directory; the `try` body runs asset staging
and page setup (`prepOk` / `pageOk` model their throwing failures — a parse
error, a navigation or readiness timeout), the capture loop with its
progress posts, then `mergeTail`; the `catch` only logs and rethrows; the
`finally` closes the browser (`closeOk`; a throw there pre-empts cleanup)
and then always calls `cleanupExport`. -/
def renderVideoRun (total : ℕ)
    (prepOk pageOk mergeOk fsVideo uploadOk closeOk rmOk : Bool) : RunResult :=
  let fs0 : JobFs := { dirExists := true }
  let body : List (ℕ × String) × Option String :=
    if prepOk = false then ([], some "AssetPrepError")
    else if pageOk = false then ([], some "RenderSurfaceTimeoutError")
    else
      let t := mergeTail mergeOk fsVideo uploadOk
      (loopReports total ++ t.1, t.2)
  if closeOk then
    { fs := cleanupExport rmOk fs0, reports := body.1, outcome := body.2 }
  else
    { fs := fs0, reports := body.1, outcome := some "BrowserCloseError" }

/-- A concrete md5 stand-in for witnesses. -/
def hashConst : String → String := fun _ => "9a0364b9e99bb480dd25e1f0284c8555"

/-- A fetch oracle that always succeeds. -/
def fetchAlways : String → Bool := fun _ => true

/-- A seek-accuracy oracle measuring 1 s on every sampled frame (every
sample fails the `< 0.5` test). -/
def accPoor : ℕ → ℚ := fun _ => 1

/-- A seek-accuracy oracle measuring 0 s on every sampled frame. -/
def accGood : ℕ → ℚ := fun _ => 0

/-- A one-element scene: a single video object. -/
def vidOnly : DesignObject := { type := "video", src := some "/tmp/e1/assets/v.mp4" }

/-- A video object with no source. -/
def vidNoSrc : DesignObject := { type := "video" }

/-- A video object with a playable source. -/
def vidWithSrc : DesignObject := { type := "video", src := some "/tmp/e1/assets/w.mp4" }

/-- A text object. -/
def txtObj : DesignObject := { type := "text" }

/-- A remote image element, for the staging claims. -/
def remoteImg : DesignObject :=
  { type := "image", src := some "http://cdn.example.com/pic.png" }

/-- `remoteImg` staged into an empty job assets directory. -/
def stagedRemoteImg : DesignObject :=
  (stageObject hashConst fetchAlways "/tmp/e1/assets" remoteImg ⟨[]⟩).1

theorem le_durationStep (fe : String → Bool) (probe : String → ℚ)
    (m : ℚ) (o : DesignObject) : m ≤ durationStep fe probe m o := by
  unfold durationStep
  cases o.src with
  | none => exact le_refl m
  | some s =>
      dsimp only
      split_ifs with h1 h2
      · exact le_of_lt h2
      · exact le_refl m
      · exact le_refl m

theorem le_foldl_durationStep (fe : String → Bool) (probe : String → ℚ) :
    ∀ (objs : List DesignObject) (m : ℚ),
      m ≤ objs.foldl (durationStep fe probe) m := by
  intro objs
  induction objs with
  | nil => intro m; exact le_refl m
  | cons o rest ih =>
      intro m
      exact le_trans (le_durationStep fe probe m o) (ih (durationStep fe probe m o))

theorem probe_le_foldl_durationStep (fe : String → Bool) (probe : String → ℚ) :
    ∀ (objs : List DesignObject) (m : ℚ) (o : DesignObject) (s : String),
      o ∈ objs → o.src = some s → elementType o = "video" → s ≠ "" →
      fe s = true → probe s ≤ objs.foldl (durationStep fe probe) m := by
  intro objs
  induction objs with
  | nil => intro m o s h; exact absurd h (List.not_mem_nil o)
  | cons p rest ih =>
      intro m o s hmem hsrc htype hs hfe
      rcases List.mem_cons.mp hmem with heq | htail
      · subst heq
        refine le_trans ?_ (le_foldl_durationStep fe probe rest (durationStep fe probe m o))
        unfold durationStep
        rw [hsrc]
        dsimp only
        have hcond : (elementType o == "video" && s != "" && fe s) = true := by
          simp [htype, hs, hfe]
        rw [if_pos hcond]
        split_ifs with h2
        · exact le_refl _
        · exact le_of_not_lt h2
      · exact ih (durationStep fe probe m p) o s htail hsrc htype hs hfe

/-- C1: the resolved export duration equals
`max(maxVideoDuration, audioDuration, 5)` — where `maxVideoDuration` is the
running maximum of the probed durations of video elements whose local file
exists and `audioDuration` is the probed duration of the extracted audio
track (0 when extraction failed or the file is absent) — so it is never
below 5 seconds, never below the audio duration, and never below any
qualifying video element's probed duration. -/
theorem renderVideo_duration_spec (fe : String → Bool) (probe : String → ℚ)
    (objs : List DesignObject) (audioPath : Option String) :
    resolvedDuration fe probe objs audioPath
        = max (max (maxVideoDuration fe probe objs)
            (audioDurationOf fe probe audioPath)) 5
  ∧ 5 ≤ resolvedDuration fe probe objs audioPath
  ∧ audioDurationOf fe probe audioPath ≤ resolvedDuration fe probe objs audioPath
  ∧ ∀ o ∈ objs, ∀ s : String, o.src = some s → elementType o = "video" →
      s ≠ "" → fe s = true →
      probe s ≤ resolvedDuration fe probe objs audioPath := by
  refine ⟨rfl, le_max_right _ _, le_trans (le_max_right _ _) (le_max_left _ _), ?_⟩
  intro o hmem s hsrc htype hs hfe
  refine le_trans ?_ (le_trans (le_max_left _ _) (le_max_left _ _))
  exact probe_le_foldl_durationStep fe probe objs 0 o s hmem hsrc htype hs hfe

theorem captureLoopGo_frames (acc : ℕ → ℚ) :
    ∀ (n i : ℕ) (frames : List ℕ) (succ fail : ℕ),
      (captureLoopGo acc i n frames succ fail).1
        = frames.reverse ++ List.range' i n := by
  intro n
  induction n with
  | zero =>
      intro i frames succ fail
      simp [captureLoopGo, List.range']
  | succ n ih =>
      intro i frames succ fail
      rw [List.range'_succ]
      unfold captureLoopGo
      split_ifs with h1 h2 <;>
        · rw [ih]
          simp

theorem captureLoopGo_counts (acc : ℕ → ℚ) :
    ∀ (n i : ℕ) (frames : List ℕ) (succ fail : ℕ),
      (captureLoopGo acc i n frames succ fail).2.1
          + (captureLoopGo acc i n frames succ fail).2.2
        = succ + fail + ((List.range' i n).filter (fun j => decide (j < 5))).length := by
  intro n
  induction n with
  | zero =>
      intro i frames succ fail
      simp [captureLoopGo, List.range']
  | succ n ih =>
      intro i frames succ fail
      rw [List.range'_succ]
      unfold captureLoopGo
      split_ifs with h1 h2 <;> rw [ih] <;> simp [List.filter_cons, h1] <;> omega

theorem totalFrames_ge (d : ℚ) (hd : 5 ≤ d) : 120 ≤ totalFramesOf d := by
  unfold totalFramesOf exportFps
  have h1 : (120 : ℤ) ≤ ⌊d * ((24 : ℕ) : ℚ)⌋ := by
    rw [Int.le_floor]
    push_cast
    nlinarith
  omega

theorem filter_lt_five_length (n : ℕ) (hn : 5 ≤ n) :
    ((List.range' 0 n).filter (fun j => decide (j < 5))).length = 5 := by
  obtain ⟨m, rfl⟩ := Nat.exists_eq_add_of_le hn
  rw [← List.range_eq_range', List.range_add]
  rw [List.filter_append]
  have h1 : (List.range 5).filter (fun j => decide (j < 5)) = List.range 5 := by
    decide
  have h2 : ((List.range m).map (5 + ·)).filter (fun j => decide (j < 5)) = [] := by
    rw [List.filter_eq_nil_iff]
    intro a ha
    rcases List.mem_map.mp ha with ⟨b, _, rfl⟩
    simp
  rw [h1, h2]
  simp

theorem seekCounts_total (acc : ℕ → ℚ) (n : ℕ) (hn : 5 ≤ n) :
    seekSuccesses acc n + seekFailures acc n = 5 := by
  unfold seekSuccesses seekFailures
  rw [captureLoopGo_counts acc n 0 [] 0 0]
  rw [filter_lt_five_length n hn]

/-- C2: the capture loop computes `totalFrames = floor(duration * fps)` and,
when it completes (a run that reaches the merge stage), has written frame
files for exactly the contiguous indices `0..totalFrames-1`: the write log
is precisely `range totalFrames`, with no index skipped and none written
twice. -/
theorem captureLoop_frames_exact (acc : ℕ → ℚ) (d : ℚ) (hd : 5 ≤ d) :
    ((totalFramesOf d : ℤ) = ⌊d * (exportFps : ℚ)⌋)
  ∧ framesCaptured acc (totalFramesOf d) = List.range (totalFramesOf d)
  ∧ (framesCaptured acc (totalFramesOf d)).Nodup
  ∧ ∀ i : ℕ, i ∈ framesCaptured acc (totalFramesOf d) ↔ i < totalFramesOf d := by
  have hfloor : (totalFramesOf d : ℤ) = ⌊d * (exportFps : ℚ)⌋ := by
    unfold totalFramesOf
    have h0 : (0 : ℤ) ≤ ⌊d * (exportFps : ℚ)⌋ := by
      rw [Int.le_floor]
      push_cast
      unfold exportFps
      push_cast
      nlinarith
    omega
  have hrange : framesCaptured acc (totalFramesOf d) = List.range (totalFramesOf d) := by
    unfold framesCaptured
    rw [captureLoopGo_frames acc (totalFramesOf d) 0 [] 0 0]
    rw [← List.range_eq_range']
    simp
  refine ⟨hfloor, hrange, ?_, ?_⟩
  · rw [hrange]; exact List.nodup_range (totalFramesOf d)
  · intro i; rw [hrange]; exact List.mem_range

/-- Witness for C2 at the minimum duration 5 s (120 frames at 24 fps). -/
theorem captureLoop_frames_exact_witness :
    (5 : ℚ) ≤ 5
  ∧ (((totalFramesOf 5 : ℤ) = ⌊(5 : ℚ) * (exportFps : ℚ)⌋)
      ∧ framesCaptured accGood (totalFramesOf 5) = List.range (totalFramesOf 5)
      ∧ (framesCaptured accGood (totalFramesOf 5)).Nodup
      ∧ ∀ i : ℕ, i ∈ framesCaptured accGood (totalFramesOf 5) ↔ i < totalFramesOf 5) :=
  ⟨by norm_num, captureLoop_frames_exact accGood 5 (by norm_num)⟩

theorem captureLoopGo_all_fail (acc : ℕ → ℚ) (hacc : ∀ i, ¬ acc i < 1/2) :
    ∀ (n i : ℕ) (frames : List ℕ) (succ fail : ℕ),
      (captureLoopGo acc i n frames succ fail).2.1 = succ := by
  intro n
  induction n with
  | zero => intro i frames succ fail; rfl
  | succ n ih =>
      intro i frames succ fail
      unfold captureLoopGo
      split_ifs with h1 h2
      · exact absurd h2 (hacc i)
      · exact ih (i + 1) (i :: frames) succ (fail + 1)
      · exact ih (i + 1) (i :: frames) succ fail

theorem successRate_lt_half_iff (s f : ℕ) (h : s + f = 5) :
    successRate s f < 1/2 ↔ s < f := by
  unfold successRate
  have h5 : ((s : ℚ) + (f : ℚ)) = 5 := by exact_mod_cast h
  rw [h5, div_lt_div_iff₀ (by norm_num : (0:ℚ) < 5) (by norm_num : (0:ℚ) < 2)]
  rw [one_mul]
  constructor
  · intro hx
    by_contra hc
    push_neg at hc
    have h2 : 5 ≤ s * 2 := by omega
    have h3 : (5 : ℚ) ≤ (s : ℚ) * 2 := by exact_mod_cast h2
    linarith
  · intro hx
    have h2 : s * 2 < 5 := by omega
    calc (s : ℚ) * 2 = ((s * 2 : ℕ) : ℚ) := by push_cast; ring
      _ < ((5 : ℕ) : ℚ) := by exact_mod_cast h2
      _ = 5 := by norm_num

theorem fallbackInvoked_iff (s f : ℕ) (objs : List DesignObject) :
    fallbackInvoked s f objs = true ↔
      s < f ∧ ∃ o, objs = [o] ∧ o.type = "video" := by
  unfold fallbackInvoked
  by_cases hfs : f > s
  · rw [if_pos hfs]
    cases objs with
    | nil => simp
    | cons o rest =>
        cases rest with
        | nil =>
            simp only [beq_iff_eq]
            constructor
            · intro h; exact ⟨hfs, o, rfl, h⟩
            · rintro ⟨-, p, hp, ht⟩
              obtain rfl : o = p := by injection hp
              exact ht
        | cons b rest2 => simp
  · rw [if_neg hfs]
    simp [hfs]

/-- C3 (amended): the FFmpeg fallback extraction is invoked iff the
seek-accuracy success ratio over the sampled frames is below 1/2 (i.e. the
failed samples outnumber the successful ones) and the scene's object list
consists of exactly one element whose `type` field is `"video"`; in
particular it is never invoked for a scene with more than one element. -/
theorem fallback_trigger_iff (acc : ℕ → ℚ) (d : ℚ) (objs : List DesignObject)
    (hd : 5 ≤ d) :
    fallbackInvoked (seekSuccesses acc (totalFramesOf d))
        (seekFailures acc (totalFramesOf d)) objs = true
      ↔ successRate (seekSuccesses acc (totalFramesOf d))
            (seekFailures acc (totalFramesOf d)) < 1/2
        ∧ ∃ o, objs = [o] ∧ o.type = "video" := by
  have h5 : seekSuccesses acc (totalFramesOf d) + seekFailures acc (totalFramesOf d) = 5 :=
    seekCounts_total acc (totalFramesOf d)
      (le_trans (by norm_num) (totalFrames_ge d hd))
  rw [fallbackInvoked_iff, successRate_lt_half_iff _ _ h5]

/-- C3 counterexample: a scene holding exactly one video element plus one
text element, rendered with every sampled seek failing (measured accuracy
1 s ≥ 0.5 s on each sample, success ratio 0 < 1/2): the claim as stated
demands the fallback, but the code never invokes it because the object list
has two elements. -/
theorem fallback_two_element_scene_not_invoked :
    fallbackInvoked (seekSuccesses accPoor (totalFramesOf 5))
        (seekFailures accPoor (totalFramesOf 5)) [vidWithSrc, txtObj] = false
  ∧ successRate (seekSuccesses accPoor (totalFramesOf 5))
        (seekFailures accPoor (totalFramesOf 5)) < 1/2
  ∧ ([vidWithSrc, txtObj].filter (fun o => elementType o == "video")).length = 1 := by
  have hacc : ∀ i : ℕ, ¬ accPoor i < 1/2 := by
    intro i
    unfold accPoor
    norm_num
  have hs : seekSuccesses accPoor (totalFramesOf 5) = 0 :=
    captureLoopGo_all_fail accPoor hacc (totalFramesOf 5) 0 [] 0 0
  have hsum : seekSuccesses accPoor (totalFramesOf 5)
      + seekFailures accPoor (totalFramesOf 5) = 5 :=
    seekCounts_total accPoor (totalFramesOf 5)
      (le_trans (by norm_num) (totalFrames_ge 5 (by norm_num)))
  have hf : seekFailures accPoor (totalFramesOf 5) = 5 := by omega
  refine ⟨?_, ?_, ?_⟩
  · rw [hs, hf]; rfl
  · rw [hs, hf]
    unfold successRate
    norm_num
  · rfl

/-- Witness for C3: a one-video-only scene with every sampled seek failing
does invoke the fallback. -/
theorem fallback_trigger_iff_witness :
    (5 : ℚ) ≤ 5
  ∧ fallbackInvoked (seekSuccesses accPoor (totalFramesOf 5))
        (seekFailures accPoor (totalFramesOf 5)) [vidOnly] = true := by
  refine ⟨by norm_num, ?_⟩
  refine (fallback_trigger_iff accPoor 5 [vidOnly] (by norm_num)).mpr ⟨?_, vidOnly, rfl, rfl⟩
  have hacc : ∀ i : ℕ, ¬ accPoor i < 1/2 := by
    intro i
    unfold accPoor
    norm_num
  have hs : seekSuccesses accPoor (totalFramesOf 5) = 0 :=
    captureLoopGo_all_fail accPoor hacc (totalFramesOf 5) 0 [] 0 0
  have hsum : seekSuccesses accPoor (totalFramesOf 5)
      + seekFailures accPoor (totalFramesOf 5) = 5 :=
    seekCounts_total accPoor (totalFramesOf 5)
      (le_trans (by norm_num) (totalFrames_ge 5 (by norm_num)))
  have hf : seekFailures accPoor (totalFramesOf 5) = 5 := by omega
  rw [hs, hf]
  unfold successRate
  norm_num

theorem loopReports_status (total : ℕ) (p : ℕ × String)
    (hp : p ∈ loopReports total) : p.2 = "rendering_frames" := by
  rcases List.mem_map.mp hp with ⟨i, -, rfl⟩
  rfl

/-- C4: in the staged pipeline, a non-success upload response after a
successful merge makes `renderVideo` throw the upload error directly: no
`failed` progress post is made first (only `rendering_frames`,
`merging_video` and `uploading` statuses were posted), contradicting the
claim; the legacy variant in renderer/captureFrames does post
`(100, failed)` before rethrowing, which is the behaviour the claim (and
the spec) describe. -/
theorem upload_failure_not_reported :
    (renderVideoRun 120 true true true true false true true).outcome
        = some "UploadError"
  ∧ (∀ p ∈ (renderVideoRun 120 true true true true false true true).reports,
        p.2 ≠ "failed")
  ∧ (legacyMergeTail true true false).2 = some "UploadError"
  ∧ (100, "failed") ∈ (legacyMergeTail true true false).1 := by
  refine ⟨rfl, ?_, rfl, by simp [legacyMergeTail]⟩
  intro p hp
  have hrep : (renderVideoRun 120 true true true true false true true).reports
      = loopReports 120 ++ [(90, "merging_video"), (95, "uploading")] := rfl
  rw [hrep] at hp
  rcases List.mem_append.mp hp with h | h
  · rw [loopReports_status 120 p h]
    decide
  · rcases List.mem_cons.mp h with rfl | h2
    · decide
    · rcases List.mem_cons.mp h2 with rfl | h3
      · decide
      · exact absurd h3 (List.not_mem_nil p)

/-- C6: whatever the stage outcomes (asset staging or page setup throwing,
the encoder failing, the merged file missing, the upload failing), once the
`finally` block runs with a successful `rm`, the job's working directory no
longer exists; and a failing `rm` (`rmOk = false`) changes neither the
reported progress nor the outcome — cleanup failures never escalate. -/
theorem cleanup_always_runs (total : ℕ)
    (prepOk pageOk mergeOk fsVideo uploadOk rmOk : Bool) :
    (renderVideoRun total prepOk pageOk mergeOk fsVideo uploadOk true true).fs.dirExists
        = false
  ∧ (renderVideoRun total prepOk pageOk mergeOk fsVideo uploadOk true rmOk).outcome
        = (renderVideoRun total prepOk pageOk mergeOk fsVideo uploadOk true true).outcome
  ∧ (renderVideoRun total prepOk pageOk mergeOk fsVideo uploadOk true rmOk).reports
        = (renderVideoRun total prepOk pageOk mergeOk fsVideo uploadOk true true).reports :=
  ⟨rfl, rfl, rfl⟩

theorem foldl_max_le_of_le (c : ℚ) :
    ∀ (l : List ℚ) (a : ℚ), a ≤ c → (∀ x ∈ l, x ≤ c) → l.foldl max a ≤ c := by
  intro l
  induction l with
  | nil => intro a ha _; exact ha
  | cons x rest ih =>
      intro a ha hall
      exact ih (max a x)
        (max_le ha (hall x (List.mem_cons_self x rest)))
        (fun y hy => hall y (List.mem_cons_of_mem x hy))

theorem seekWaitOne_le_two (current target : ℚ) (seekedAt : Option ℚ) :
    seekWaitOne current target seekedAt ≤ 2 := by
  unfold seekWaitOne
  split_ifs with h
  · norm_num
  · cases seekedAt with
    | none => exact le_refl 2
    | some t => exact min_le_right t 2

/-- C7: in every `__SEEK_VIDEO__` invocation, an element whose current
position is within 0.05 s of the target resolves immediately (zero wait);
any other element's wait is bounded by the 2-second fallback timer, which
resolves regardless of whether the `seeked` event ever fires; hence the
whole call (the `Promise.all` over all elements) never waits more than 2 s
and never blocks indefinitely. -/
theorem seek_snapping (current target : ℚ) (seekedAt : Option ℚ)
    (videos : List (ℚ × Option ℚ)) :
    (|current - target| < 1/20 → seekWaitOne current target seekedAt = 0)
  ∧ seekWaitOne current target seekedAt ≤ 2
  ∧ seekToWaits videos target ≤ 2 := by
  refine ⟨?_, seekWaitOne_le_two current target seekedAt, ?_⟩
  · intro h
    unfold seekWaitOne
    rw [if_pos h]
  · unfold seekToWaits
    refine foldl_max_le_of_le 2 _ 0 (by norm_num) ?_
    intro x hx
    rcases List.mem_map.mp hx with ⟨v, -, rfl⟩
    exact seekWaitOne_le_two v.1 target v.2

/-- C5: staging the same remote URL twice within one job yields the same
local path on both calls — the deterministic path
`assetsDir/<hash(url)><ext(url)>` — and, provided the first call succeeded
(or the file was already cached), the second call performs no network fetch
and no write, because the file already exists. -/
theorem downloadAsset_idempotent (hashFn : String → String)
    (fetchOk : String → Bool) (url assetsDir : String) (st : FsState)
    (hurl : strStartsWith url "http" = true) (hfetch : fetchOk url = true) :
    (downloadAsset hashFn fetchOk url assetsDir st).result
        = joinPath assetsDir (hashFn url ++ assetExt url)
  ∧ (downloadAsset hashFn fetchOk url assetsDir
        (downloadAsset hashFn fetchOk url assetsDir st).fs).result
        = (downloadAsset hashFn fetchOk url assetsDir st).result
  ∧ (downloadAsset hashFn fetchOk url assetsDir
        (downloadAsset hashFn fetchOk url assetsDir st).fs).fetched = false
  ∧ (downloadAsset hashFn fetchOk url assetsDir
        (downloadAsset hashFn fetchOk url assetsDir st).fs).wrote = false := by
  have hne : ¬ (url = "" ∨ ¬ strStartsWith url "http") := by
    rintro (rfl | h)
    · exact absurd hurl (by decide)
    · exact h hurl
  by_cases hmem : joinPath assetsDir (hashFn url ++ assetExt url) ∈ st.files
  · have h1 : downloadAsset hashFn fetchOk url assetsDir st
        = ⟨joinPath assetsDir (hashFn url ++ assetExt url), st, false, false⟩ := by
      unfold downloadAsset
      rw [if_neg hne, if_pos hmem]
    rw [h1]
    refine ⟨rfl, ?_, ?_, ?_⟩ <;>
      · unfold downloadAsset
        rw [if_neg hne, if_pos hmem]
  · have h1 : downloadAsset hashFn fetchOk url assetsDir st
        = ⟨joinPath assetsDir (hashFn url ++ assetExt url),
            ⟨joinPath assetsDir (hashFn url ++ assetExt url) :: st.files⟩,
            true, true⟩ := by
      unfold downloadAsset
      rw [if_neg hne, if_neg hmem, if_pos hfetch]
    rw [h1]
    have hmem2 : joinPath assetsDir (hashFn url ++ assetExt url)
        ∈ joinPath assetsDir (hashFn url ++ assetExt url) :: st.files :=
      List.mem_cons_self _ _
    refine ⟨rfl, ?_, ?_, ?_⟩ <;>
      · unfold downloadAsset
        rw [if_neg hne]
        dsimp only
        rw [if_pos hmem2]

/-- Witness for C5: a concrete remote PNG staged twice into an empty job
directory; the second call fetches nothing. -/
theorem downloadAsset_idempotent_witness :
    strStartsWith "http://cdn.example.com/pic.png" "http" = true
  ∧ (downloadAsset hashConst fetchAlways "http://cdn.example.com/pic.png"
        "/tmp/e1/assets"
        (downloadAsset hashConst fetchAlways "http://cdn.example.com/pic.png"
          "/tmp/e1/assets" ⟨[]⟩).fs).fetched = false :=
  ⟨by decide,
    (downloadAsset_idempotent hashConst fetchAlways
      "http://cdn.example.com/pic.png" "/tmp/e1/assets" ⟨[]⟩
      (by decide) rfl).2.2.1⟩

/-- C10: `downloadAsset` is the identity on any source string that does not
start with `http` (local paths, `file:` URLs, data URIs, the empty string):
it returns the string unchanged, touches no file and calls no fetch, and
consequently `processObjects` leaves an element carrying such a source
untouched. -/
theorem downloadAsset_non_remote (hashFn : String → String)
    (fetchOk : String → Bool) (url assetsDir : String) (st : FsState)
    (h : strStartsWith url "http" = false) :
    downloadAsset hashFn fetchOk url assetsDir st = ⟨url, st, false, false⟩
  ∧ ∀ o : DesignObject, o.src = some url →
      stageObject hashFn fetchOk assetsDir o st = (o, st) := by
  have hcond : url = "" ∨ ¬ strStartsWith url "http" := Or.inr (by simp [h])
  have h1 : downloadAsset hashFn fetchOk url assetsDir st = ⟨url, st, false, false⟩ := by
    unfold downloadAsset
    rw [if_pos hcond]
  refine ⟨h1, ?_⟩
  intro o hsrc
  unfold stageObject
  rw [hsrc]
  dsimp only
  by_cases hu : url = ""
  · rw [if_pos hu]
  · rw [if_neg hu]
    simp only [h1]
    simp

/-- Witness for C10: a local absolute path passes through `downloadAsset`
unchanged, with no fetch and no write. -/
theorem downloadAsset_non_remote_witness :
    strStartsWith "/local/pic.png" "http" = false
  ∧ downloadAsset hashConst fetchAlways "/local/pic.png" "/tmp/e1/assets" ⟨[]⟩
      = ⟨"/local/pic.png", ⟨[]⟩, false, false⟩ :=
  ⟨by decide,
    (downloadAsset_non_remote hashConst fetchAlways "/local/pic.png"
      "/tmp/e1/assets" ⟨[]⟩ (by decide)).1⟩

/-- C8: after staging, the element's `originalSrc` holds the rewritten
local path, not the original remote URL — `obj.src = localPath` runs before
`obj.originalSrc = obj.src`, so the original remote reference is lost
(evaluated on a concrete remote PNG staged into an empty job directory). -/
theorem stageObject_loses_original_reference :
    stagedRemoteImg.src
        = some "/tmp/e1/assets/9a0364b9e99bb480dd25e1f0284c8555.png"
  ∧ stagedRemoteImg.originalSrc
        = some "/tmp/e1/assets/9a0364b9e99bb480dd25e1f0284c8555.png"
  ∧ stagedRemoteImg.originalSrc ≠ some "http://cdn.example.com/pic.png"
  ∧ remoteImg.src = some "http://cdn.example.com/pic.png" := by
  decide

/-- C9 counterexample: a scene whose first video element has no source but
whose second video element has a playable one — the first video element
with a playable source exists (it is the second object), yet `extractAudio`
returns null instead of extracting from it. -/
theorem extractAudio_skips_sourced_video :
    extractAudioFromObjects true "/tmp/e1" [vidNoSrc, vidWithSrc] = none
  ∧ List.find? (fun o => elementType o == "video" && srcTruthy o)
      [vidNoSrc, vidWithSrc] = some vidWithSrc := by
  decide

/-- C9 (amended): `extractAudio` consults only the first element whose kind
(`customType || type`) is `video`, independently of every element's `muted`
flag: when no video element exists it returns null, and when the first video
element is `v` the result is determined by `v` alone — audio is extracted
iff `v` has a truthy source (and ffmpeg succeeds), even when a later video
element carries a playable source. -/
theorem extractAudio_first_video_decides (ffmpegOk : Bool) (dir : String)
    (objs : List DesignObject) (b : Bool) :
    extractAudioFromObjects ffmpegOk dir (objs.map (setMuted b))
        = extractAudioFromObjects ffmpegOk dir objs
  ∧ (List.find? (fun o => elementType o == "video") objs = none →
        extractAudioFromObjects ffmpegOk dir objs = none)
  ∧ ∀ v, List.find? (fun o => elementType o == "video") objs = some v →
        extractAudioFromObjects ffmpegOk dir objs
          = (if srcTruthy v && ffmpegOk then some (joinPath dir "audio.aac")
             else none) := by
  refine ⟨?_, ?_, ?_⟩
  · unfold extractAudioFromObjects
    rw [List.find?_map]
    have hp : ((fun o => elementType o == "video") ∘ setMuted b)
        = (fun o => elementType o == "video") := by
      funext o
      rfl
    rw [hp]
    cases List.find? (fun o => elementType o == "video") objs with
    | none => rfl
    | some v => rfl
  · intro hnone
    unfold extractAudioFromObjects
    rw [hnone]
  · intro v hv
    unfold extractAudioFromObjects
    rw [hv]
    cases hsrc : v.src with
    | none => simp [srcTruthy, hsrc]
    | some s =>
        by_cases hs : s = ""
        · subst hs
          simp [srcTruthy, hsrc]
        · simp [srcTruthy, hsrc, hs]
